import Mathlib

/-!
Shallow embedding of the SpecSpec Rust validation prelude
(src/src/codegen/rust/prelude.rs) and proofs about its validators.

Conventions of the embedding:
- `serde_json::Value` becomes the inductive `Value`; JSON numbers are
  modelled as rationals (`Rat`), which captures the integer/fractional and
  ordering behaviour the validators depend on.
- A Rust validator `Fn(&Value, &[String], &mut Issues)` that mutates the
  issue vector becomes a function `Value → List String → Issues → Issues`
  returning the updated issue list.
- The external `regex` crate is a black-box collaborator; it is modelled by
  a `RegexEngine` whose `compile` either fails (malformed pattern) or
  yields a match predicate.
- File-system and zip-archive access (external collaborators) are modelled
  by an explicit `FS` record supplying the kind checks and archive
  contents that the Rust code obtains from `std::fs` and the `zip` crate.
- Rust `format!` output for numbers and debug-printed values is abstracted
  by the total functions `fmtRat` and `fmtValue`; no theorem depends on
  the exact rendered text of these fragments.
-/

/-- One recorded violation: mirrors `struct Issue \x7b path, code, message \x7d`. -/
structure Issue where
  path : String
  code : String
  message : String
deriving DecidableEq, Repr

/-- `type Issues = Vec<Issue>` -/
abbrev Issues := List Issue

/-- Mirrors `struct ValidationResult \x7b ok: bool, issues: Issues \x7d`. -/
structure ValidationResult where
  ok : Bool
  issues : Issues

/-- Mirrors `fn add_issue`: pushes one `Issue` whose path is `"(root)"` for an
empty breadcrumb and the `.`-joined segments otherwise. -/
def add_issue (issues : Issues) (path : List String) (code : String) (message : String) : Issues :=
  issues.concat
    { path := if path.isEmpty then "(root)" else String.intercalate "." path
      code := code
      message := message }

/-- The generic JSON-like data model (`serde_json::Value`), with numbers as
rationals. -/
inductive Value where
  | null
  | bool (b : Bool)
  | num (n : Rat)
  | str (s : String)
  | arr (items : List Value)
  | obj (fields : List (String × Value))

/-- `Value::as_str` -/
def Value.as_str : Value → Option String
  | .str s => some s
  | _ => none

/-- `Value::as_f64`: every JSON number answers (integers are widened). -/
def Value.as_f64 : Value → Option Rat
  | .num n => some n
  | _ => none

/-- `Value::as_i64`: only integral numbers answer. -/
def Value.as_i64 : Value → Option Int
  | .num n => if n.den = 1 then some n.num else none
  | _ => none

/-- `Value::as_array` -/
def Value.as_array : Value → Option (List Value)
  | .arr xs => some xs
  | _ => none

/-- `Value::as_object` -/
def Value.as_object : Value → Option (List (String × Value))
  | .obj fs => some fs
  | _ => none

/-- `Value::is_boolean` -/
def Value.is_boolean : Value → Bool
  | .bool _ => true
  | _ => false

/-- `Value::is_object` -/
def Value.is_object : Value → Bool
  | .obj _ => true
  | _ => false

/-- Abstraction of Rust numeric `format!` display, used only inside
human-readable issue messages. -/
def fmtRat (q : Rat) : String :=
  if q.den = 1 then toString q.num else toString q.num ++ "/" ++ toString q.den

/-- Abstraction of the Rust `\x7b:?\x7d` debug rendering of a `Value`, used only
inside human-readable issue messages. -/
def fmtValue : Value → String
  | .null => "Null"
  | .bool b => "Bool(" ++ toString b ++ ")"
  | .num n => "Number(" ++ fmtRat n ++ ")"
  | .str s => "String(" ++ s ++ ")"
  | .arr _ => "Array(..)"
  | .obj _ => "Object(..)"

/-- `f64::fract`: fractional part, taken toward zero like Rust `fract`. -/
def rustFract (q : Rat) : Rat :=
  if 0 ≤ q then q - q.floor else q - q.ceil

/-- The external regex crate as a black box: `compile` is `Regex::new`
(`none` for a malformed pattern) and a compiled regex is its
`is_match` predicate. -/
structure RegexEngine where
  compile : String → Option (String → Bool)

/-- Rust `str::starts_with`, modelled structurally on the character list so
that it evaluates by kernel reduction. -/
def strStartsWith (s pre : String) : Bool :=
  pre.data.isPrefixOf s.data

/-- Rust `str::ends_with`, modelled structurally on the character list so
that it evaluates by kernel reduction. -/
def strEndsWith (s suf : String) : Bool :=
  suf.data.isSuffixOf s.data

/-- Mirrors `fn validate_str`: type check, then independent length bounds,
then the (silently skipped when malformed) regex constraint. Rust
`s.len()` is the UTF-8 byte length. -/
def validate_str (eng : RegexEngine) (value : Value) (path : List String) (issues : Issues)
    (min_length max_length : Option Nat) (pat : Option String) : Issues :=
  match value.as_str with
  | some s =>
    let issues :=
      match min_length with
      | some min =>
        if s.utf8ByteSize < min then
          add_issue issues path "str.too_short"
            ("String length " ++ toString s.utf8ByteSize ++ " is less than minimum " ++ toString min)
        else issues
      | none => issues
    let issues :=
      match max_length with
      | some max =>
        if s.utf8ByteSize > max then
          add_issue issues path "str.too_long"
            ("String length " ++ toString s.utf8ByteSize ++ " exceeds maximum " ++ toString max)
        else issues
      | none => issues
    match pat with
    | some p =>
      match eng.compile p with
      | some re =>
        if !(re s) then
          add_issue issues path "str.pattern_mismatch" ("String does not match pattern " ++ p)
        else issues
      | none => issues
    | none => issues
  | none =>
    add_issue issues path "type.mismatch" ("Expected string, got " ++ fmtValue value)

/-- Mirrors `fn validate_num`: numeric coercion (as_f64 then as_i64), then the
integer, minimum and maximum checks in sequence with no short-circuit. -/
def validate_num (value : Value) (path : List String) (issues : Issues)
    (min max : Option Rat) (integer : Bool) : Issues :=
  match value.as_f64 with
  | some num =>
    let issues :=
      if integer = true ∧ rustFract num ≠ 0 then
        add_issue issues path "num.not_integer" ("Expected integer, got " ++ fmtRat num)
      else issues
    let issues :=
      match min with
      | some m =>
        if num < m then
          add_issue issues path "num.too_small"
            ("Number " ++ fmtRat num ++ " is less than minimum " ++ fmtRat m)
        else issues
      | none => issues
    match max with
    | some m =>
      if num > m then
        add_issue issues path "num.too_large"
          ("Number " ++ fmtRat num ++ " exceeds maximum " ++ fmtRat m)
      else issues
    | none => issues
  | none =>
    match value.as_i64 with
    | some _ =>
      -- unreachable for this Value model: as_f64 answers for every number
      issues
    | none =>
      add_issue issues path "type.mismatch" ("Expected number, got " ++ fmtValue value)

/-- Mirrors `fn validate_bool`. -/
def validate_bool (value : Value) (path : List String) (issues : Issues) : Issues :=
  if !value.is_boolean then
    add_issue issues path "type.mismatch" ("Expected boolean, got " ++ fmtValue value)
  else issues

/-- Mirrors `fn validate_literal_str`. -/
def validate_literal_str (value : Value) (path : List String) (issues : Issues)
    (expected : String) : Issues :=
  match value.as_str with
  | some s =>
    if s = expected then issues
    else add_issue issues path "literal.mismatch"
      ("Expected " ++ expected ++ ", got " ++ fmtValue value)
  | none =>
    add_issue issues path "literal.mismatch"
      ("Expected " ++ expected ++ ", got " ++ fmtValue value)

/-- Mirrors `fn validate_literal_i64`. -/
def validate_literal_i64 (value : Value) (path : List String) (issues : Issues)
    (expected : Int) : Issues :=
  match value.as_i64 with
  | some n =>
    if n = expected then issues
    else add_issue issues path "literal.mismatch"
      ("Expected " ++ toString expected ++ ", got " ++ fmtValue value)
  | none =>
    add_issue issues path "literal.mismatch"
      ("Expected " ++ toString expected ++ ", got " ++ fmtValue value)

/-- Mirrors `fn validate_pattern`: non-string is a type mismatch; a malformed
regex silently skips the check. -/
def validate_pattern (eng : RegexEngine) (value : Value) (path : List String) (issues : Issues)
    (pat : String) : Issues :=
  match value.as_str with
  | some s =>
    match eng.compile pat with
    | some re =>
      if !(re s) then
        add_issue issues path "pattern.mismatch" ("Value does not match pattern " ++ pat)
      else issues
    | none => issues
  | none =>
    add_issue issues path "type.mismatch"
      ("Expected string for pattern match, got " ++ fmtValue value)

/-- Mirrors `fn validate_object`: returns the is-object flag together with the
(possibly extended) issue list. -/
def validate_object (value : Value) (path : List String) (issues : Issues) : Bool × Issues :=
  if value.is_object then (true, issues)
  else (false, add_issue issues path "type.mismatch" ("Expected object, got " ++ fmtValue value))

/-- Mirrors `fn validate_field`: on an object, a present key runs the nested
validator at the extended path, an absent required key records
`field.missing`; a non-object input falls through untouched. -/
def validate_field (obj : Value) (path : List String) (issues : Issues) (key : String)
    (validator : Option (Value → List String → Issues → Issues)) (opt : Bool) : Issues :=
  match obj.as_object with
  | some map =>
    match (map.find? (fun kv => kv.1 == key)).map (·.2) with
    | some v =>
      match validator with
      | some f => f v (path ++ [key]) issues
      | none => issues
    | none =>
      if !opt then
        add_issue issues path "field.missing" ("Missing required field: " ++ key)
      else issues
  | none => issues

/-- The per-item loop of `fn validate_list`: runs the item validator on every
element in order, at the path extended with the bracketed index. -/
def run_items (iv : Value → List String → Issues → Issues) (path : List String) :
    List Value → Nat → Issues → Issues
  | [], _, issues => issues
  | x :: xs, i, issues =>
    run_items iv path xs (i + 1) (iv x (path ++ ["[" ++ toString i ++ "]"]) issues)

/-- Mirrors `fn validate_list`: type check, independent length bounds, then the
per-item loop. -/
def validate_list (value : Value) (path : List String) (issues : Issues)
    (item_validator : Option (Value → List String → Issues → Issues))
    (min_items max_items : Option Nat) : Issues :=
  match value.as_array with
  | some arr =>
    let issues :=
      match min_items with
      | some min =>
        if arr.length < min then
          add_issue issues path "list.too_short"
            ("Array length " ++ toString arr.length ++ " is less than minimum " ++ toString min)
        else issues
      | none => issues
    let issues :=
      match max_items with
      | some max =>
        if arr.length > max then
          add_issue issues path "list.too_long"
            ("Array length " ++ toString arr.length ++ " exceeds maximum " ++ toString max)
        else issues
      | none => issues
    match item_validator with
    | some iv => run_items iv path arr 0 issues
    | none => issues
  | none =>
    add_issue issues path "type.mismatch" ("Expected array, got " ++ fmtValue value)

/-- Mirrors `fn validate_oneof`: each candidate runs against a fresh empty
issue list; the first empty outcome returns the callers list untouched, and
exhaustion records a single `oneof.no_match`. -/
def validate_oneof (value : Value) (path : List String) (issues : Issues) :
    List (Value → List String → Issues → Issues) → Issues
  | [] => add_issue issues path "oneof.no_match" "Value does not match any of the options"
  | v :: rest =>
    if (v value path []).isEmpty then issues
    else validate_oneof value path issues rest

/-- One archive entry as surfaced by the zip crate: its internal name, the
directory flag, and the result of reading its bytes. -/
structure ZipEntry where
  name : String
  entry_is_dir : Bool
  data : Except String (List Nat)

/-- The external file system and zip reader as a black box: kind checks for a
path, and the outcome of opening the path as an archive (`File::open` plus
`ZipArchive::new` plus `by_index`, with their error messages already
formatted). -/
structure FS where
  isDir : String → Bool
  isFile : String → Bool
  archive : String → Except String (List ZipEntry)

/-- `Path::exists` for the path kinds this code distinguishes. -/
def FS.pathExists (fs : FS) (p : String) : Bool :=
  fs.isFile p || fs.isDir p

/-- `HashMap::insert` on the association-list model: the new binding shadows
any previous binding of the same key. -/
def insertEntry (m : List (String × List Nat)) (k : String) (v : List Nat) :
    List (String × List Nat) :=
  (k, v) :: m.filter (fun kv => kv.1 != k)

/-- Key membership of the entry map (`HashMap::contains_key`). -/
def entriesContains (m : List (String × List Nat)) (k : String) : Bool :=
  m.any (fun kv => kv.1 == k)

/-- The key view of the entry map (`HashMap::keys`). -/
def entriesKeys (m : List (String × List Nat)) : List String :=
  m.map (·.1)

/-- Mirrors `struct FSContext`: base path, archive flag, and the eagerly
loaded name-to-bytes entry map (empty for a directory backend). -/
structure FSContext where
  base_path : String
  is_zip : Bool
  zip_entries : List (String × List Nat)
deriving DecidableEq

/-- The entry-loading loop of `FSContext::new`: skips directory entries, reads
every other entry fully, and fails with the read error otherwise. -/
def load_entries : List ZipEntry → List (String × List Nat) →
    Except String (List (String × List Nat))
  | [], acc => .ok acc
  | e :: rest, acc =>
    if e.entry_is_dir then load_entries rest acc
    else
      match e.data with
      | .ok d => load_entries rest (insertEntry acc e.name d)
      | .error msg => .error ("Cannot read zip content: " ++ msg)

/-- Mirrors `FSContext::new`: a directory path yields a directory backend; a
file path ending in `.zip` or `.asks` (the extension test is hard-coded
here) yields an archive backend with eagerly loaded entries; anything else
is `Not a valid bundle`. -/
def FSContext.new (fs : FS) (path : String) : Except String FSContext :=
  if fs.isDir path then
    .ok { base_path := path, is_zip := false, zip_entries := [] }
  else if fs.isFile path && (strEndsWith path ".zip" || strEndsWith path ".asks") then
    match fs.archive path with
    | .ok entries =>
      match load_entries entries [] with
      | .ok m => .ok { base_path := path, is_zip := true, zip_entries := m }
      | .error e => .error e
    | .error e => .error e
  else
    .error ("Not a valid bundle: " ++ path)

/-- `Path::join` for the relative paths this code uses. -/
def joinPath (base rel : String) : String :=
  base ++ "/" ++ rel

/-- Mirrors `FSContext::exists`: exact key membership or a key extending the
path with `/` on the archive backend; a file-system existence check on the
directory backend. -/
def FSContext.exists (fs : FS) (ctx : FSContext) (rel_path : String) : Bool :=
  if ctx.is_zip then
    entriesContains ctx.zip_entries rel_path
      || (entriesKeys ctx.zip_entries).any (fun k => strStartsWith k (rel_path ++ "/"))
  else
    fs.pathExists (joinPath ctx.base_path rel_path)

/-- Mirrors `FSContext::is_file`: exact key membership on the archive
backend. -/
def FSContext.is_file (fs : FS) (ctx : FSContext) (rel_path : String) : Bool :=
  if ctx.is_zip then
    entriesContains ctx.zip_entries rel_path
  else
    fs.isFile (joinPath ctx.base_path rel_path)

/-- Mirrors `FSContext::is_dir`: synthetic directory detection by key prefix
on the archive backend. -/
def FSContext.is_dir (fs : FS) (ctx : FSContext) (rel_path : String) : Bool :=
  if ctx.is_zip then
    (entriesKeys ctx.zip_entries).any (fun k => strStartsWith k (rel_path ++ "/"))
  else
    fs.isDir (joinPath ctx.base_path rel_path)

/-- `Path::file_stem` of the final component: the part before the last dot,
the whole name when there is no dot or for a bare dot-file. -/
def file_stem (p : String) : String :=
  let nm := (p.splitOn "/").getLastD ""
  let parts := nm.splitOn "."
  if parts.length ≤ 1 then nm
  else if strStartsWith nm "." && parts.length == 2 then nm
  else String.intercalate "." parts.dropLast

/-- Mirrors `FSContext::basename`. -/
def FSContext.basename (ctx : FSContext) : String :=
  file_stem ctx.base_path

/-- Mirrors `fn validate_bundle`: existence and kind classification, the
acceptance flags, accessor construction (failure becomes
`bundle.open_error`), then the optional name pattern and content
validator. Returns the updated issues with the accessor, `none` on any
terminal failure. -/
def validate_bundle (fs : FS) (eng : RegexEngine) (bundle_path : String)
    (path_list : List String) (issues : Issues) (accept_dir accept_zip : Bool)
    (zip_ext : Option String) (name_pat : Option String)
    (content_validator : Option (FSContext → List String → Issues → Issues)) :
    Issues × Option FSContext :=
  if !(fs.pathExists bundle_path) then
    (add_issue issues path_list "bundle.not_found" ("Path not found: " ++ bundle_path), none)
  else
    let is_dir := fs.isDir bundle_path
    let is_zip := !is_dir && (strEndsWith bundle_path ".zip"
      || (match zip_ext with
          | some e => strEndsWith bundle_path ("." ++ e)
          | none => false))
    if is_dir && !accept_dir then
      (add_issue issues path_list "bundle.type_mismatch" "Directory not accepted", none)
    else if is_zip && !accept_zip then
      (add_issue issues path_list "bundle.type_mismatch" "Zip file not accepted", none)
    else if !is_dir && !is_zip then
      (add_issue issues path_list "bundle.invalid" ("Not a valid bundle: " ++ bundle_path), none)
    else
      match FSContext.new fs bundle_path with
      | .ok ctx =>
        let issues :=
          match name_pat with
          | some pat =>
            match eng.compile pat with
            | some re =>
              if !(re ctx.basename) then
                add_issue issues path_list "bundle.name_mismatch"
                  ("Name " ++ ctx.basename ++ " does not match pattern")
              else issues
            | none => issues
          | none => issues
        let issues :=
          match content_validator with
          | some cv => cv ctx path_list issues
          | none => issues
        (issues, some ctx)
      | .error e =>
        (add_issue issues path_list "bundle.open_error" e, none)

/-- Mirrors `fn validate`: run the validator at the root path against a fresh
issue list and package the result. -/
def validate (value : Value) (validator : Value → List String → Issues → Issues) :
    ValidationResult :=
  let issues := validator value [] []
  { ok := issues.isEmpty, issues := issues }

/-- Mirrors `fn validate_path`: run the bundle validator at the root path
against a fresh issue list, discard the produced accessor, and package the
result. -/
def validate_path (bundle_path : String)
    (validator : String → List String → Issues → Issues × Option FSContext) :
    ValidationResult :=
  let r := validator bundle_path [] []
  { ok := r.1.isEmpty, issues := r.1 }

/-- The path rendering shared by every issue: `"(root)"` for an empty
breadcrumb, the `.`-joined segments otherwise. -/
def render_path (path : List String) : String :=
  if path.isEmpty then "(root)" else String.intercalate "." path

/-- The issue list produced by running an item validator freshly on every
element of a list, in order, at bracketed-index paths starting at `i`. -/
def items_spec (iv : Value → List String → Issues → Issues) (path : List String) :
    List Value → Nat → Issues
  | [], _ => []
  | x :: xs, i =>
    iv x (path ++ ["[" ++ toString i ++ "]"]) [] ++ items_spec iv path xs (i + 1)

/-- A regex engine on which every pattern is malformed. -/
def engNone : RegexEngine := ⟨fun _ => none⟩

/-- An item validator that records one issue per visited element. -/
def witness_item_validator (_ : Value) (p : List String) (acc : Issues) : Issues :=
  add_issue acc p "item.bad" "x"

/-- A file system with no directories and no files. -/
def fsEmpty : FS :=
  { isDir := fun _ => false, isFile := fun _ => false, archive := fun _ => .error "unused" }

/-- An archive-backed context holding the single entry `data/x.txt`. -/
def ctxData : FSContext :=
  { base_path := "b.zip", is_zip := true, zip_entries := [("data/x.txt", [])] }

/-- A file system on which `bundle.pkg` is an existing regular file whose
content is a perfectly valid (empty) archive. -/
def fsPkg : FS :=
  { isDir := fun _ => false, isFile := fun p => p == "bundle.pkg", archive := fun _ => .ok [] }

/-- A file system on which `b.asks` is an existing regular file whose content
is a valid archive with one readable entry. -/
def fsAsks : FS :=
  { isDir := fun _ => false, isFile := fun p => p == "b.asks",
    archive := fun _ => .ok [⟨"data/x.txt", false, .ok [104]⟩] }

theorem add_issue_eq (issues : Issues) (path : List String) (code msg : String) :
    add_issue issues path code msg = issues ++ [⟨render_path path, code, msg⟩] := by
  simp [add_issue, render_path]

/-- Claim C1: for every validator and input, the `ValidationResult` returned
by the entry points `validate` and `validate_path` has `ok` equal to
`issues.isEmpty`. -/
theorem validate_ok_iff_no_issues
    (value : Value) (validator : Value → List String → Issues → Issues)
    (bundle_path : String)
    (pvalidator : String → List String → Issues → Issues × Option FSContext) :
    (validate value validator).ok = (validate value validator).issues.isEmpty
    ∧ (validate_path bundle_path pvalidator).ok
        = (validate_path bundle_path pvalidator).issues.isEmpty :=
  ⟨rfl, rfl⟩

/-- Claim C2: `validate_oneof` leaves the callers issue list untouched exactly
when some candidate produces zero issues on a fresh list, and otherwise
appends the single `oneof.no_match` issue at the original path; no candidate
issues ever reach the callers list. -/
theorem validate_oneof_spec (value : Value) (path : List String) (issues : Issues)
    (validators : List (Value → List String → Issues → Issues)) :
    validate_oneof value path issues validators
      = if validators.any (fun v => (v value path []).isEmpty) then issues
        else issues ++ [⟨render_path path, "oneof.no_match",
          "Value does not match any of the options"⟩] := by
  induction validators with
  | nil => simp [validate_oneof, add_issue_eq]
  | cons v rest ih =>
    by_cases h : (v value path []).isEmpty
    · simp [validate_oneof, h]
    · simp [validate_oneof, h, ih]

/-- Claim C3: `add_issue` appends exactly one issue at the end, leaving every
previously recorded issue unchanged, and renders the path as `"(root)"` for an
empty segment list and as the `.`-joined segments otherwise. -/
theorem add_issue_appends_one (issues : Issues) (path : List String) (code msg : String) :
    add_issue issues path code msg
      = issues ++ [⟨if path.isEmpty then "(root)" else String.intercalate "." path, code, msg⟩]
    ∧ (add_issue issues path code msg).take issues.length = issues
    ∧ (add_issue issues path code msg).length = issues.length + 1 := by
  refine ⟨by simp [add_issue], ?_, by simp [add_issue]⟩
  simp [add_issue, List.concat_eq_append, List.take_left]

/-- Claim C4: a pattern the regex engine cannot compile imposes no constraint:
`validate_str` behaves exactly as with no pattern supplied, and
`validate_pattern` on a string value records nothing. -/
theorem malformed_regex_no_constraint (eng : RegexEngine) (s : String) (path : List String)
    (issues : Issues) (min_length max_length : Option Nat) (p : String)
    (h : eng.compile p = none) :
    validate_str eng (Value.str s) path issues min_length max_length (some p)
      = validate_str eng (Value.str s) path issues min_length max_length none
    ∧ validate_pattern eng (Value.str s) path issues p = issues := by
  constructor
  · simp [validate_str, Value.as_str, h]
  · simp [validate_pattern, Value.as_str, h]

theorem malformed_regex_no_constraint_witness :
    validate_str engNone (Value.str "ab") [] [] (some 5) none (some "(")
      = validate_str engNone (Value.str "ab") [] [] (some 5) none none
    ∧ validate_pattern engNone (Value.str "ab") [] [] "(" = [] :=
  malformed_regex_no_constraint engNone "ab" [] [] (some 5) none "(" rfl

/-- Claim C5, counterexample: `bundle.pkg` is an existing regular file holding
a valid archive, the alternate extension `pkg` is supplied and archives are
accepted, yet `validate_bundle` records `bundle.open_error` and returns no
accessor, because `FSContext.new` only recognizes `.zip` and `.asks`. -/
theorem alt_ext_open_error_cex :
    validate_bundle fsPkg engNone "bundle.pkg" [] [] true true (some "pkg") none none
      = ([⟨"(root)", "bundle.open_error", "Not a valid bundle: bundle.pkg"⟩], none) := by
  decide

/-- Claim C5, amended: only for the hard-coded archive extension `asks` (as
for `zip`) does the classification agree with accessor construction: an
existing regular file ending in `.asks` whose archive opens and loads yields
the archive-backed accessor with no issue recorded. -/
theorem validate_bundle_asks_accepted (fs : FS) (eng : RegexEngine) (bundle_path : String)
    (path_list : List String) (issues : Issues) (accept_dir : Bool)
    (entries : List ZipEntry) (m : List (String × List Nat))
    (hfile : fs.isFile bundle_path = true) (hdir : fs.isDir bundle_path = false)
    (hext : strEndsWith bundle_path ".asks" = true)
    (harch : fs.archive bundle_path = .ok entries)
    (hload : load_entries entries [] = .ok m) :
    validate_bundle fs eng bundle_path path_list issues accept_dir true (some "asks") none none
      = (issues, some { base_path := bundle_path, is_zip := true, zip_entries := m }) := by
  simp [validate_bundle, FS.pathExists, hfile, hdir, hext, FSContext.new, harch, hload,
    show ("." ++ "asks" : String) = ".asks" from rfl]

theorem validate_bundle_asks_accepted_witness :
    validate_bundle fsAsks engNone "b.asks" [] [] true true (some "asks") none none
      = ([], some { base_path := "b.asks", is_zip := true,
                    zip_entries := [("data/x.txt", [104])] }) :=
  validate_bundle_asks_accepted fsAsks engNone "b.asks" [] [] true
    [⟨"data/x.txt", false, .ok [104]⟩] [("data/x.txt", [104])]
    (by decide) rfl (by decide) rfl rfl

/-- Claim C6: on a numeric value, `validate_num` runs the integer, minimum and
maximum checks independently with no short-circuit, appending one issue per
violated constraint in exactly that order. -/
theorem validate_num_no_short_circuit (n : Rat) (path : List String) (issues : Issues)
    (min max : Option Rat) (integer : Bool) :
    validate_num (Value.num n) path issues min max integer
      = ((issues
          ++ (if integer = true ∧ rustFract n ≠ 0 then
                [⟨render_path path, "num.not_integer", "Expected integer, got " ++ fmtRat n⟩]
              else []))
          ++ (match min with
              | some m =>
                if n < m then
                  [⟨render_path path, "num.too_small",
                    "Number " ++ fmtRat n ++ " is less than minimum " ++ fmtRat m⟩]
                else []
              | none => []))
          ++ (match max with
              | some m =>
                if n > m then
                  [⟨render_path path, "num.too_large",
                    "Number " ++ fmtRat n ++ " exceeds maximum " ++ fmtRat m⟩]
                else []
              | none => []) := by
  cases min <;> cases max <;>
    by_cases hi : integer = true ∧ rustFract n ≠ 0 <;>
      simp [validate_num, Value.as_f64, add_issue_eq, hi, List.append_assoc] <;>
        split_ifs <;> simp [List.append_assoc]

/-- The run_items loop of validate_list equals appending the fresh per-item
issue lists, for any item validator that only appends. -/
theorem run_items_eq (iv : Value → List String → Issues → Issues) (path : List String)
    (happ : ∀ v p acc, iv v p acc = acc ++ iv v p [])
    (xs : List Value) (i : Nat) (issues : Issues) :
    run_items iv path xs i issues = issues ++ items_spec iv path xs i := by
  induction xs generalizing i issues with
  | nil => simp [run_items, items_spec]
  | cons x xs ih =>
    simp [run_items, items_spec, ih,
      happ x (path ++ ["[" ++ toString i ++ "]"]) issues, List.append_assoc]

/-- Claim C7: on an array, `validate_list` appends both length-bound issues
independently and still runs the item validator on every element in source
order at the bracketed zero-based index paths; on a non-array it appends a
single `type.mismatch` issue and validates no items. Stated for item
validators that, like every validator of this library, only append. -/
theorem validate_list_independent_checks (value : Value) (path : List String) (issues : Issues)
    (iv : Value → List String → Issues → Issues) (min_items max_items : Option Nat)
    (happ : ∀ v p acc, iv v p acc = acc ++ iv v p []) :
    validate_list value path issues (some iv) min_items max_items
      = match value with
        | .arr xs =>
          ((issues
            ++ (match min_items with
                | some min =>
                  if xs.length < min then
                    [⟨render_path path, "list.too_short",
                      "Array length " ++ toString xs.length ++ " is less than minimum "
                        ++ toString min⟩]
                  else []
                | none => []))
            ++ (match max_items with
                | some max =>
                  if xs.length > max then
                    [⟨render_path path, "list.too_long",
                      "Array length " ++ toString xs.length ++ " exceeds maximum "
                        ++ toString max⟩]
                  else []
                | none => []))
            ++ items_spec iv path xs 0
        | _ =>
          issues ++ [⟨render_path path, "type.mismatch",
            "Expected array, got " ++ fmtValue value⟩] := by
  cases value with
  | arr xs =>
    cases min_items <;> cases max_items <;>
      simp [validate_list, Value.as_array, add_issue_eq, run_items_eq iv path happ,
        List.append_assoc] <;>
        split_ifs <;> simp [List.append_assoc]
  | null => simp [validate_list, Value.as_array, add_issue_eq]
  | bool b => simp [validate_list, Value.as_array, add_issue_eq]
  | num n => simp [validate_list, Value.as_array, add_issue_eq]
  | str s => simp [validate_list, Value.as_array, add_issue_eq]
  | obj fs => simp [validate_list, Value.as_array, add_issue_eq]

theorem validate_list_independent_checks_witness :
    validate_list (Value.arr [Value.num 1, Value.num 2]) [] []
      (some witness_item_validator) (some 3) none
      = [⟨"(root)", "list.too_short", "Array length 2 is less than minimum 3"⟩,
         ⟨"[0]", "item.bad", "x"⟩, ⟨"[1]", "item.bad", "x"⟩] :=
  (validate_list_independent_checks (Value.arr [Value.num 1, Value.num 2]) [] []
      witness_item_validator (some 3) none
      (fun v p acc => by simp [witness_item_validator, add_issue])).trans (by decide)

/-- Claim C8: on an archive-backed accessor, `exists` answers true exactly
when the relative path is a key of the entry map or some key starts with the
path followed by a slash. -/
theorem zip_exists_iff (fs : FS) (ctx : FSContext) (p : String) (h : ctx.is_zip = true) :
    FSContext.exists fs ctx p = true
      ↔ (entriesContains ctx.zip_entries p = true
          ∨ ∃ k ∈ entriesKeys ctx.zip_entries, strStartsWith k (p ++ "/") = true) := by
  simp [FSContext.exists, h, List.any_eq_true, Bool.or_eq_true]

theorem zip_exists_iff_witness :
    FSContext.exists fsEmpty ctxData "data" = true :=
  (zip_exists_iff fsEmpty ctxData "data" rfl).mpr
    (Or.inr ⟨"data/x.txt", by decide, by decide⟩)

/-- Claim C9: on any value that is not an object, `validate_field` is a no-op
regardless of the key, the supplied validator and the optional flag. -/
theorem validate_field_non_object_noop (obj : Value) (path : List String) (issues : Issues)
    (key : String) (validator : Option (Value → List String → Issues → Issues)) (opt : Bool)
    (h : obj.as_object = none) :
    validate_field obj path issues key validator opt = issues := by
  simp [validate_field, h]

theorem validate_field_non_object_noop_witness :
    validate_field (Value.str "x") [] [] "k" none false = [] :=
  validate_field_non_object_noop (Value.str "x") [] [] "k" none false rfl

/-- Claim C10: on an archive-backed accessor, `exists` is exactly the
disjunction of `is_file` and `is_dir`. -/
theorem zip_exists_eq_file_or_dir (fs : FS) (ctx : FSContext) (p : String)
    (h : ctx.is_zip = true) :
    FSContext.exists fs ctx p
      = (FSContext.is_file fs ctx p || FSContext.is_dir fs ctx p) := by
  simp [FSContext.exists, FSContext.is_file, FSContext.is_dir, h]

theorem zip_exists_eq_file_or_dir_witness :
    FSContext.exists fsEmpty ctxData "data"
      = (FSContext.is_file fsEmpty ctxData "data" || FSContext.is_dir fsEmpty ctxData "data") :=
  zip_exists_eq_file_or_dir fsEmpty ctxData "data" rfl
